import Mathlib

/-!
Verification of the picture-coverage bookkeeping and reward-shaping logic of
`habitat_baselines/rl/ppo/ppo_trainer.py` (class `PPOTrainerO`).

The Python code works on 2D numpy grids (top-down maps, fog-of-war masks,
picture-range maps).  A grid is embedded as a shape together with a total cell
function; cells outside the shape are never read by the embedded code paths.
Scores (`ci` values) are Python floats holding exact small rationals in every
code path modelled here, so they are embedded as `ℚ`.

Each definition below mirrors one Python function of the source; the source
line numbers are given in the doc comments.
-/

/-- A 2D grid of integer cell values, as a numpy array of shape `h × w`. -/
structure Grid where
  h : Nat
  w : Nat
  cell : Nat → Nat → Nat

/-- The default grid used as the fallback of list lookups that the Python code
performs only at indices known to be valid. -/
def dGrid : Grid := ⟨0, 0, fun _ _ => 0⟩

/-- The index pairs `(i, j)` enumerated by the nested loops
`for i in range(h): for j in range(w)` of the source. -/
def gridIdx (g : Grid) : List (Nat × Nat) :=
  List.product (List.range g.h) (List.range g.w)

/-- Constant `maps.MAP_TARGET_POINT_INDICATOR` of the habitat `maps` module;
the source comment at ppo_trainer.py:320 records its value, 6. -/
def MAP_TARGET_POINT_INDICATOR : Nat := 6

/-- Field `self.TARGET_THRESHOLD_ONE = 20` (ppo_trainer.py:186). -/
def TARGET_THRESHOLD_ONE : Nat := 20

/-- `_create_picture_range_map` (ppo_trainer.py:829-840): starts from
`np.zeros_like(top_down_map)` and, for every in-range cell, writes 1 where the
cell is traversable and fogged-in (`top_down_map != 0` and `fog == 1`),
2 where traversable but not fogged-in, leaving 0 (background) elsewhere. -/
def createPictureRangeMap (top_down_map fog_of_war_map : Grid) : Grid :=
  { h := top_down_map.h
    w := top_down_map.w
    cell := fun i j =>
      if i < top_down_map.h ∧ j < top_down_map.w then
        if top_down_map.cell i j ≠ 0 then
          if fog_of_war_map.cell i j = 1 then 1 else 2
        else 0
      else 0 }

/-- Number of cells of value `v` in a grid (over its shape's index range). -/
def Grid.countVal (g : Grid) (v : Nat) : Nat :=
  (gridIdx g).countP (fun p => decide (g.cell p.1 p.2 = v))

/-- Local counter `num` of `_check_percentage_of_fog` and
`_cal_rate_of_fog_other`: the number of cells of `fog_map` equal to 1. -/
def fogNum (fog_map : Grid) : Nat :=
  (gridIdx fog_map).countP (fun p => decide (fog_map.cell p.1 p.2 = 1))

/-- Local counter `num_covered` of `_check_percentage_of_fog`: the number of
cells equal to 1 in both `fog_map` and `pre_fog_map`. -/
def fogNumCovered (fog_map pre_fog_map : Grid) : Nat :=
  (gridIdx fog_map).countP
    (fun p => decide (fog_map.cell p.1 p.2 = 1 ∧ pre_fog_map.cell p.1 p.2 = 1))

/-- `_check_percentage_of_fog` (ppo_trainer.py:843-874).  When the two shapes
agree it returns `some (per ≥ threshold)` where `per` is the fraction of
`fog_map`'s 1-cells also set in `pre_fog_map` (0 when `fog_map` has none).
When the shapes disagree the Python body reaches the bare expression
statement `False` (line 874) — not a `return` — and the function falls off
its end, returning `None`; this is embedded as `none`.  The float division
`num_covered / num` is embedded as the exact rational `mkRat num_covered
num` (provably equal to `(num_covered : ℚ) / num`, see
`mkRat_natCast_div` below). -/
def checkPercentageOfFog (fog_map pre_fog_map : Grid) (threshold : ℚ) :
    Option Bool :=
  if fog_map.w = pre_fog_map.w ∧ fog_map.h = pre_fog_map.h then
    let num := fogNum fog_map
    let num_covered := fogNumCovered fog_map pre_fog_map
    let per : ℚ := if num = 0 then 0 else mkRat num_covered num
    if per < threshold then some false else some true
  else
    none

/-- Spec-side definition (§4.1 of the spec): `overlap_ratio(a, b)` is
`count(a==COVERED AND b==COVERED) / count(a==COVERED)`, and `0.0` when `a`
has no COVERED cells. -/
def overlapRatioSpec (a b : Grid) : ℚ :=
  if fogNum a = 0 then 0 else (fogNumCovered a b : ℚ) / (fogNum a : ℚ)

/-- `_cal_rate_of_fog_other` (ppo_trainer.py:877-907): the fraction of
`fog_map`'s 1-cells that are set in the map of at least one slot index of
`cover_list` other than `idx` (the inner `break` makes each cell count once);
`0` when `fog_map` has no 1-cells. -/
def calRateOfFogOther (fog_map : Grid) (pre_fog_of_war_map_list : List Grid)
    (cover_list : List Nat) (idx : Int) : ℚ :=
  let num := fogNum fog_map
  let num_covered :=
    (gridIdx fog_map).countP (fun p =>
      decide (fog_map.cell p.1 p.2 = 1 ∧
        ∃ m ∈ cover_list, (m : Int) ≠ idx ∧
          (pre_fog_of_war_map_list.getD m dGrid).cell p.1 p.2 = 1))
  if num = 0 then 0 else mkRat num_covered num

/-- `_compareWithChangedCI` (ppo_trainer.py:910-916): shrink `ci` by the rate
of overlap against the covering slots other than `idx` and compare with
`pre_ci`.  The shrinking is local to this function: the caller's `ci[n]` is
not changed. -/
def compareWithChangedCI (picture_range_map : Grid)
    (pre_fog_of_war_map_list : List Grid) (cover_list : List Nat)
    (ci pre_ci : ℚ) (idx : Int) : Bool :=
  let rate := calRateOfFogOther picture_range_map pre_fog_of_war_map_list
    cover_list idx
  decide (ci * (1 - rate) > pre_ci)

/-- One entry `[ci, picture_range_map]` of `self._taken_picture_list[n]`. -/
abbrev Slot := ℚ × Grid

/-- The default slot used as the fallback of list lookups that the Python code
performs only at indices known to be valid. -/
def dSlot : Slot := (0, dGrid)

/-- Python list read `lst[idx]` with an `int` index: a negative index counts
from the end of the list (the source only ever reads index `-1` or a valid
non-negative index). -/
def pyGet (slots : List Slot) (idx : Int) : Slot :=
  if 0 ≤ idx then slots.getD idx.toNat dSlot
  else slots.getD (slots.length - idx.natAbs) dSlot

/-- Python list write `lst[idx] = v` with an `int` index: a negative index
counts from the end of the list. -/
def pySet (slots : List Slot) (idx : Int) (v : Slot) : List Slot :=
  if 0 ≤ idx then slots.set idx.toNat v
  else slots.set (slots.length - idx.natAbs) v

/-- One iteration of the loop at ppo_trainer.py:431-439 over slot index `k`:
append `k` to `cover_list` when the new picture significantly overlaps slot
`k`'s map, and update the `(idx, min_ci)` pair exactly as the source does —
compare `min_ci` against the score at the current `idx` (which is `-1`, the
last slot, before any update) and, on success, move `idx` to `k` and reload
`min_ci` from the slot at the new `idx`. -/
def coverSearchStep (picture_range_map : Grid) (slots : List Slot)
    (acc : List Nat × Int × ℚ) (k : Nat) : List Nat × Int × ℚ :=
  let cover_list :=
    if checkPercentageOfFog picture_range_map ((slots.getD k dSlot).2)
        (mkRat 1 4) = some true
    then acc.1 ++ [k] else acc.1
  if acc.2.2 < (pyGet slots acc.2.1).1 then
    (cover_list, (k : Int), (pyGet slots (k : Int)).1)
  else
    (cover_list, acc.2.1, acc.2.2)

/-- The whole loop at ppo_trainer.py:429-439, started from `idx = -1` and
`min_ci = ci[n]` (the raw score of the new capture). -/
def coverSearch (picture_range_map : Grid) (slots : List Slot) (raw : ℚ) :
    List Nat × Int × ℚ :=
  (List.range slots.length).foldl (coverSearchStep picture_range_map slots)
    ([], -1, raw)

/-- One iteration of the loop at ppo_trainer.py:466-470: keep the slot index
with the smallest score seen so far, starting from `(-1, 1000)`. -/
def coverMinStep (slots : List Slot) (acc : Int × ℚ) (idx_k : Nat) : Int × ℚ :=
  if (slots.getD idx_k dSlot).1 < acc.2 then
    ((idx_k : Int), (slots.getD idx_k dSlot).1)
  else acc

/-- The loop at ppo_trainer.py:463-470 computing `(min_idx, min_ci_k)` over
the slot indices of `cover_list`, with initial values `min_idx = -1` and
`min_ci_k = 1000`. -/
def coverMin (slots : List Slot) (cover_list : List Nat) : Int × ℚ :=
  cover_list.foldl (coverMinStep slots) (-1, 1000)

/-- Result of one capture-consideration step: the updated slot list, the
amount added to `reward[n]`, and the final value of `ci[n]`. -/
structure ConsiderResult where
  slots : List Slot
  reward_delta : ℚ
  ci : ℚ

/-- The per-capture slot logic of `_collect_rollout_step`
(ppo_trainer.py:422-479), entered when a capture attempt occurred: guard
`ci[n] == 0 → continue`, then the overlap search, then either the
no-significant-overlap branch (lines 442-459: append below capacity,
otherwise replace at `idx` when the search set one) or the overlap branch
(lines 462-479: find the minimum-score covering slot, compare against the
overlap-shrunk score, replace on success).  `raw` is `ci[n]` as produced by
`_do_take_picture_object`. -/
def consider (raw : ℚ) (picture_range_map : Grid) (slots : List Slot)
    (num_picture : Nat) : ConsiderResult :=
  if raw = 0 then ⟨slots, 0, 0⟩
  else
    let s := coverSearch picture_range_map slots raw
    let cover_list := s.1
    let idx := s.2.1
    if cover_list = [] then
      if slots.length ≠ num_picture then
        ⟨slots ++ [(raw, picture_range_map)], raw, raw⟩
      else
        if idx ≠ -1 then
          let ci_pre := (pyGet slots idx).1
          ⟨pySet slots idx (raw, picture_range_map), raw - ci_pre, raw - ci_pre⟩
        else ⟨slots, 0, 0⟩
    else
      let mn := coverMin slots cover_list
      let min_idx := mn.1
      let min_ci_k := mn.2
      if compareWithChangedCI picture_range_map (slots.map Prod.snd)
          cover_list raw min_ci_k min_idx then
        ⟨pySet slots min_idx (raw, picture_range_map), raw - min_ci_k,
          raw - min_ci_k⟩
      else ⟨slots, 0, 0⟩

/-- The per-environment target-tracking state: `self._target_index_list[n]`
and `self._observed_object_ci_one[n]`. -/
structure TrackerState where
  target_index_list : List Nat
  observed_object_ci_one : List Nat
deriving DecidableEq

/-- The canonical target set
`[MAP_TARGET_POINT_INDICATOR, MAP_TARGET_POINT_INDICATOR+1,
MAP_TARGET_POINT_INDICATOR+2]` used at initialization and every reseed. -/
def canonicalTargets : List Nat :=
  [MAP_TARGET_POINT_INDICATOR, MAP_TARGET_POINT_INDICATOR + 1,
    MAP_TARGET_POINT_INDICATOR + 2]

/-- One iteration of the scan loop of `_do_take_picture_object`
(ppo_trainer.py:322-328): on an in-bounds fogged-in cell whose map value is a
current target, increment `ci` and that target's counter. -/
def scanStep (top_down_map fog_of_war_map : Grid) (target_index_list : List Nat)
    (acc : Nat × List Nat) (p : Nat × Nat) : Nat × List Nat :=
  if p.1 < fog_of_war_map.h ∧ p.2 < fog_of_war_map.w then
    if fog_of_war_map.cell p.1 p.2 = 1 then
      if top_down_map.cell p.1 p.2 ∈ target_index_list then
        let t := top_down_map.cell p.1 p.2 - MAP_TARGET_POINT_INDICATOR
        (acc.1 + 1, acc.2.set t (acc.2.getD t 0 + 1))
      else acc
    else acc
  else acc

/-- The scan of `_do_take_picture_object` (ppo_trainer.py:321-328), returning
`ci` and the updated counters. -/
def doTakePictureScan (top_down_map fog_of_war_map : Grid)
    (tr : TrackerState) : Nat × List Nat :=
  (gridIdx top_down_map).foldl
    (scanStep top_down_map fog_of_war_map tr.target_index_list)
    (0, tr.observed_object_ci_one)

/-- The loop of `_delete_observed_target` (ppo_trainer.py:309-316):
`for i in self._target_index_list[n]: if counter(i) > threshold: remove(i)`.
Python's list iterator keeps a position `i` that advances by one each
iteration while `remove` deletes the first occurrence of the value from the
same list, so a removal shifts the remaining elements one position left under
the iterator.
The recursion is driven by a fuel argument so that it is structural: the
iterator position `i` grows by one per iteration and the list never grows,
so after `l.length` iterations the guard `i < l.length` is necessarily
false, and starting the fuel at the initial list length loses no iteration
(`deleteLoop_fuel` below makes this exact). -/
def deleteLoop (counters : List Nat) :
    Nat → List Nat → Nat → Nat → List Nat × Nat
  | 0, l, _i, object_num => (l, object_num)
  | fuel + 1, l, i, object_num =>
    if h : i < l.length then
      let x := l.get ⟨i, h⟩
      if counters.getD (x - MAP_TARGET_POINT_INDICATOR) 0 >
          TARGET_THRESHOLD_ONE
      then deleteLoop counters fuel (l.erase x) (i + 1) (object_num + 1)
      else deleteLoop counters fuel l (i + 1) object_num
    else (l, object_num)

/-- `_delete_observed_target` (ppo_trainer.py:309-316), acting on a target
list and a counter list; returns the surviving list and `object_num`. -/
def deleteObservedTarget (counters : List Nat) (target_index_list : List Nat) :
    List Nat × Nat :=
  deleteLoop counters target_index_list.length target_index_list 0 0

/-- `_do_take_picture_object` (ppo_trainer.py:319-340): scan, prune, and
reseed the target set (zeroing the counters) when the prune emptied it.
Returns the new tracker state, `ci`, and `object_num_deleted`. -/
def doTakePictureObject (top_down_map fog_of_war_map : Grid)
    (tr : TrackerState) : TrackerState × Nat × Nat :=
  let scanRes := doTakePictureScan top_down_map fog_of_war_map tr
  let ci := scanRes.1
  let counters := scanRes.2
  let delRes := deleteObservedTarget counters tr.target_index_list
  let tl := delRes.1
  let object_num_deleted := delRes.2
  if tl.length = 0 then (⟨canonicalTargets, [0, 0, 0]⟩, ci, object_num_deleted)
  else (⟨tl, counters⟩, ci, object_num_deleted)

/-- The per-environment mutable state of the trainer:
`self._taken_picture_list[n]`, `self._target_index_list[n]`,
`self._observed_object_ci_one[n]`. -/
structure EnvState where
  taken_picture_list : List Slot
  target_index_list : List Nat
  observed_object_ci_one : List Nat

/-- The per-environment per-tick input delivered by the environment
collaborator: `captureAttempt` is `ci[n] != -sys.float_info.max`
(ppo_trainer.py:415), `top_down_map` and `fog_of_war_map` come from
`infos[n]["picture_range_map"]`, `top_map` from `infos[n]["top_down_map"]`,
and `done` is the episode-done flag. -/
structure TickInput where
  captureAttempt : Bool
  top_down_map : Grid
  fog_of_war_map : Grid
  top_map : Grid
  done : Bool

/-- The per-environment state effects of one `_collect_rollout_step` call
(ppo_trainer.py:413-523): on a capture attempt, build the picture-range map,
update the tracker via `_do_take_picture_object`, and run the slot logic;
then, when the episode ended, clear the slot list and reseed the target list
(lines 522-523 — note the counters are not touched there).  Returns the new
state and the picture reward delta. -/
def collectRolloutStepEnv (num_picture : Nat) (inp : TickInput)
    (st : EnvState) : EnvState × ℚ :=
  let stepSt :=
    if inp.captureAttempt then
      let picture_range_map :=
        createPictureRangeMap inp.top_down_map inp.fog_of_war_map
      let tk := doTakePictureObject inp.top_map inp.fog_of_war_map
        ⟨st.target_index_list, st.observed_object_ci_one⟩
      let res := consider ((tk.2.1 : ℚ)) picture_range_map
        st.taken_picture_list num_picture
      (⟨res.slots, tk.1.target_index_list, tk.1.observed_object_ci_one⟩,
        res.reward_delta)
    else (st, 0)
  if inp.done then
    (⟨[], canonicalTargets, stepSt.1.observed_object_ci_one⟩, stepSt.2)
  else stepSt

/-- One iteration of the training loop body for one environment
(ppo_trainer.py:711-725): the per-step initialization
`self._observed_object_ci_one[n] = [0, 0, 0]` (line 717) followed by the
`_collect_rollout_step` effects. -/
def trainTick (num_picture : Nat) (inp : TickInput) (st : EnvState) :
    EnvState × ℚ :=
  collectRolloutStepEnv num_picture inp
    ⟨st.taken_picture_list, st.target_index_list, [0, 0, 0]⟩

/-- A sequence of `consider` calls starting from the empty slot list of a
fresh episode. -/
def considerRun (num_picture : Nat) (calls : List (ℚ × Grid)) : List Slot :=
  calls.foldl (fun slots c => (consider c.1 c.2 slots num_picture).slots) []

/-- Concrete scenario for C7: a single remaining target category 6 whose
counter crosses the threshold, so pruning empties the set. -/
def tr7 : TrackerState := ⟨[6], [0, 0, 0]⟩

/-- A 1×21 top-down map holding 21 cells of category 6. -/
def tdm7 : Grid := ⟨1, 21, fun _ _ => 6⟩

/-- A 1×21 all-ones fog mask. -/
def fog7 : Grid := ⟨1, 21, fun _ _ => 1⟩

/-- The target-tracking invariant: the per-episode target set only ever holds
canonical categories, and the counter array keeps its three entries. -/
def TrackerInv (tr : TrackerState) : Prop :=
  (∀ x ∈ tr.target_index_list, x ∈ canonicalTargets) ∧
  tr.observed_object_ci_one.length = 3

/-- Concrete map for C1: one covered cell at column 0 of a 1×3 grid. -/
def mapA1 : Grid := ⟨1, 3, fun _ j => if j = 0 then 1 else 0⟩

/-- Concrete map for C1: one covered cell at column 1, disjoint from
`mapA1`. -/
def mapB1 : Grid := ⟨1, 3, fun _ j => if j = 1 then 1 else 0⟩

/-- Concrete map for C1: one covered cell at column 2, disjoint from both
`mapA1` and `mapB1`. -/
def mapC1 : Grid := ⟨1, 3, fun _ j => if j = 2 then 1 else 0⟩

/-- Concrete grids for C3: a 1×42 top-down map whose first 21 cells hold
category 6 and last 21 cells hold category 7, under an all-ones fog mask. -/
def tdm3 : Grid := ⟨1, 42, fun _ j => if j < 21 then 6 else 7⟩

/-- All-ones 1×42 fog mask for C3. -/
def fog3 : Grid := ⟨1, 42, fun _ _ => 1⟩

/-- Fresh tracker state for C3. -/
def tr3 : TrackerState := ⟨canonicalTargets, [0, 0, 0]⟩

/-- A trivial 1×1 grid used by the C5 tick input. -/
def g5 : Grid := ⟨1, 1, fun _ _ => 0⟩

/-- C5 tick input: no capture attempt and no episode end — a plain
mid-episode tick. -/
def inp5 : TickInput := ⟨false, g5, g5, g5, false⟩

/-- C5 state: mid-episode state whose first counter holds 5. -/
def st5 : EnvState := ⟨[], canonicalTargets, [5, 0, 0]⟩

/-- The list of indices of kept slots that the new picture significantly
overlaps — the value `cover_list` holds after the loop at
ppo_trainer.py:431-439. -/
def CoverList (picture_range_map : Grid) (slots : List Slot) : List Nat :=
  (List.range slots.length).filter (fun k =>
    decide (checkPercentageOfFog picture_range_map ((slots.getD k dSlot).2)
      (mkRat 1 4) = some true))

/-- Concrete map for C2: one covered cell at column 0 of a 1×4 grid. -/
def mapP2 : Grid := ⟨1, 4, fun _ j => if j = 0 then 1 else 0⟩

/-- Concrete map for C2: one covered cell at column 1. -/
def mapQ2 : Grid := ⟨1, 4, fun _ j => if j = 1 then 1 else 0⟩

/-- Concrete map for C2: covered cells at columns 0 and 1, overlapping half
of its coverage with `mapP2` and half with `mapQ2`. -/
def mapR2 : Grid := ⟨1, 4, fun _ j => if j = 0 ∨ j = 1 then 1 else 0⟩

/-! Helper lemmas. -/

/-- Fuel adequacy: once the fuel covers the remaining positions
`l.length - i`, adding more fuel does not change the result of
`deleteLoop`, so running `_delete_observed_target`'s loop with fuel equal
to the initial list length is exact. -/
theorem deleteLoop_fuel (counters : List Nat) :
    ∀ (fuel : Nat) (l : List Nat) (i object_num : Nat),
      l.length ≤ fuel + i →
      deleteLoop counters (fuel + 1) l i object_num =
        deleteLoop counters fuel l i object_num := by
  intro fuel
  induction fuel with
  | zero =>
    intro l i object_num hle
    have hni : ¬ i < l.length := by omega
    simp [deleteLoop, hni]
  | succ fuel ih =>
    intro l i object_num hle
    by_cases hi : i < l.length
    · have hmem : l.get ⟨i, hi⟩ ∈ l := l.get_mem i hi
      have herase : (l.erase (l.get ⟨i, hi⟩)).length = l.length - 1 :=
        List.length_erase_of_mem hmem
      conv_lhs => rw [deleteLoop]
      conv_rhs => rw [deleteLoop]
      simp only [dif_pos hi]
      split_ifs
      · exact ih (l.erase (l.get ⟨i, hi⟩)) (i + 1) (object_num + 1) (by omega)
      · exact ih l (i + 1) object_num (by omega)
    · simp [deleteLoop, hi]

/-- The exact rational `mkRat a b` of two counters is the division the
Python source performs on them. -/
theorem mkRat_natCast_div (a b : Nat) : mkRat (a : Int) b = (a : ℚ) / (b : ℚ) := by
  rw [Rat.mkRat_eq_div, Int.cast_natCast]

/-- Counting with three mutually exclusive, jointly exhaustive predicates
partitions a list. -/
theorem countP_three {α : Type} (p q r : α → Bool) :
    ∀ l : List α, (∀ x ∈ l, (p x).toNat + (q x).toNat + (r x).toNat = 1) →
      l.countP p + l.countP q + l.countP r = l.length := by
  intro l
  induction l with
  | nil => intro _; simp
  | cons a l ih =>
    intro h
    have ha := h a (List.mem_cons_self a l)
    have hl := ih (fun x hx => h x (List.mem_cons_of_mem a hx))
    simp only [List.countP_cons, List.length_cons]
    cases hpa : p a <;> cases hqa : q a <;> cases hra : r a <;>
      simp [hpa, hqa, hra] at ha ⊢ <;> omega

/-- The loop index list of a grid has `h * w` entries. -/
theorem gridIdx_length (g : Grid) : (gridIdx g).length = g.h * g.w := by
  show ((List.range g.h) ×ˢ (List.range g.w)).length = g.h * g.w
  rw [List.length_product, List.length_range, List.length_range]

/-- Every cell of a picture-range map is 0, 1 or 2. -/
theorem createPictureRangeMap_cell_mem (top_down_map fog_of_war_map : Grid)
    (i j : Nat) :
    (createPictureRangeMap top_down_map fog_of_war_map).cell i j = 0 ∨
    (createPictureRangeMap top_down_map fog_of_war_map).cell i j = 1 ∨
    (createPictureRangeMap top_down_map fog_of_war_map).cell i j = 2 := by
  simp only [createPictureRangeMap]
  split_ifs <;> simp

/-- C4: on a shape mismatch the overlap comparison `_check_percentage_of_fog`
silently returns Python `None` (the bare expression statement `False` at
ppo_trainer.py:874 is not a `return`, and the function falls off its end), so
it does not signal a dimension-mismatch error — the claim's contract is the
intended one and the code violates it.  Evaluated at the concrete mismatched
pair of shapes 1×1 and 1×2. -/
theorem c4_shape_mismatch_returns_none :
    checkPercentageOfFog ⟨1, 1, fun _ _ => 1⟩ ⟨1, 2, fun _ _ => 1⟩ (1 / 4) =
      none := by
  decide

/-- C8: for equal-shape coverage maps the overlap comparison returns
`some true` exactly when the ratio `count(a==COVERED AND b==COVERED) /
count(a==COVERED)` (0 when `a` has no covered cells) is at least the 0.25
threshold, and `some false` exactly when it is below it. -/
theorem c8_overlap_ratio_threshold (a b : Grid)
    (hh : a.h = b.h) (hw : a.w = b.w) :
    (checkPercentageOfFog a b (1 / 4) = some true ↔
      1 / 4 ≤ overlapRatioSpec a b) ∧
    (checkPercentageOfFog a b (1 / 4) = some false ↔
      overlapRatioSpec a b < 1 / 4) ∧
    (fogNum a = 0 → overlapRatioSpec a b = 0) := by
  have hcond : a.w = b.w ∧ a.h = b.h := ⟨hw, hh⟩
  have hper : (if fogNum a = 0 then (0 : ℚ)
      else mkRat (fogNumCovered a b) (fogNum a)) = overlapRatioSpec a b := by
    unfold overlapRatioSpec
    split_ifs with h0
    · rfl
    · exact mkRat_natCast_div _ _
  simp only [checkPercentageOfFog, if_pos hcond, hper]
  by_cases hlt : overlapRatioSpec a b < 1 / 4
  · simp [hlt, not_le.mpr hlt]
    intro h0
    simp [overlapRatioSpec, h0]
  · simp [hlt, not_lt.mp hlt]
    intro h0
    simp [overlapRatioSpec, h0]

/-- C8 witness: two concrete equal-shape 1×4 maps with overlap ratio exactly
1/4, at the threshold boundary. -/
theorem c8_overlap_ratio_threshold_witness :
    (checkPercentageOfFog ⟨1, 4, fun _ _ => 1⟩
        ⟨1, 4, fun _ j => if j = 0 then 1 else 0⟩ (1 / 4) = some true ↔
      1 / 4 ≤ overlapRatioSpec ⟨1, 4, fun _ _ => 1⟩
        ⟨1, 4, fun _ j => if j = 0 then 1 else 0⟩) ∧
    (checkPercentageOfFog ⟨1, 4, fun _ _ => 1⟩
        ⟨1, 4, fun _ j => if j = 0 then 1 else 0⟩ (1 / 4) = some false ↔
      overlapRatioSpec ⟨1, 4, fun _ _ => 1⟩
        ⟨1, 4, fun _ j => if j = 0 then 1 else 0⟩ < 1 / 4) ∧
    (fogNum ⟨1, 4, fun _ _ => 1⟩ = 0 →
      overlapRatioSpec ⟨1, 4, fun _ _ => 1⟩
        ⟨1, 4, fun _ j => if j = 0 then 1 else 0⟩ = 0) :=
  c8_overlap_ratio_threshold ⟨1, 4, fun _ _ => 1⟩
    ⟨1, 4, fun _ j => if j = 0 then 1 else 0⟩ rfl rfl

/-- C9: for equal-shape inputs the picture-range-map builder is the per-cell
function of the spec — BACKGROUND (0) where the top-down map is 0, COVERED
(1) where it is nonzero and the visibility mask is 1, TRAVERSABLE (2)
otherwise — and the three per-value cell counts sum to `h * w`. -/
theorem c9_coverage_map_build (top_down_map fog_of_war_map : Grid)
    (_hh : top_down_map.h = fog_of_war_map.h)
    (_hw : top_down_map.w = fog_of_war_map.w) :
    (∀ i j, i < top_down_map.h → j < top_down_map.w →
      (createPictureRangeMap top_down_map fog_of_war_map).cell i j =
        if top_down_map.cell i j = 0 then 0
        else if fog_of_war_map.cell i j = 1 then 1 else 2) ∧
    (createPictureRangeMap top_down_map fog_of_war_map).countVal 0 +
      (createPictureRangeMap top_down_map fog_of_war_map).countVal 1 +
      (createPictureRangeMap top_down_map fog_of_war_map).countVal 2 =
      top_down_map.h * top_down_map.w := by
  constructor
  · intro i j hi hj
    simp only [createPictureRangeMap, if_pos (And.intro hi hj)]
    by_cases h0 : top_down_map.cell i j = 0
    · simp [h0]
    · simp [h0]
  · have hmem : ∀ p ∈ gridIdx (createPictureRangeMap top_down_map fog_of_war_map),
        (decide ((createPictureRangeMap top_down_map fog_of_war_map).cell p.1 p.2 = 0)).toNat +
        (decide ((createPictureRangeMap top_down_map fog_of_war_map).cell p.1 p.2 = 1)).toNat +
        (decide ((createPictureRangeMap top_down_map fog_of_war_map).cell p.1 p.2 = 2)).toNat = 1 := by
      intro p _
      rcases createPictureRangeMap_cell_mem top_down_map fog_of_war_map p.1 p.2
        with h | h | h <;> simp [h]
    have hsum := countP_three _ _ _
      (gridIdx (createPictureRangeMap top_down_map fog_of_war_map)) hmem
    simpa [Grid.countVal, gridIdx_length, createPictureRangeMap] using hsum

/-- C9 witness: the builder at a concrete 2×2 pair of equal-shape grids. -/
theorem c9_coverage_map_build_witness :
    (∀ i j, i < (Grid.mk 2 2 fun i j => i + j).h →
        j < (Grid.mk 2 2 fun i j => i + j).w →
      (createPictureRangeMap (Grid.mk 2 2 fun i j => i + j)
          (Grid.mk 2 2 fun i _ => i)).cell i j =
        if (Grid.mk 2 2 fun i j => i + j).cell i j = 0 then 0
        else if (Grid.mk 2 2 fun i _ => i).cell i j = 1 then 1 else 2) ∧
    (createPictureRangeMap (Grid.mk 2 2 fun i j => i + j)
        (Grid.mk 2 2 fun i _ => i)).countVal 0 +
      (createPictureRangeMap (Grid.mk 2 2 fun i j => i + j)
        (Grid.mk 2 2 fun i _ => i)).countVal 1 +
      (createPictureRangeMap (Grid.mk 2 2 fun i j => i + j)
        (Grid.mk 2 2 fun i _ => i)).countVal 2 =
      (Grid.mk 2 2 fun i j => i + j).h * (Grid.mk 2 2 fun i j => i + j).w :=
  c9_coverage_map_build (Grid.mk 2 2 fun i j => i + j)
    (Grid.mk 2 2 fun i _ => i) rfl rfl

/-- A Python-style list write never changes the list's length. -/
theorem pySet_length (slots : List Slot) (idx : Int) (v : Slot) :
    (pySet slots idx v).length = slots.length := by
  unfold pySet
  split_ifs <;> rw [List.length_set]

/-- A single `consider` call keeps the slot count at or below capacity. -/
theorem consider_slots_length_le (raw : ℚ) (pmap : Grid) (slots : List Slot)
    (K : Nat) (h : slots.length ≤ K) :
    (consider raw pmap slots K).slots.length ≤ K := by
  simp only [consider]
  split_ifs with h0 hcov hlen hidx hcmp
  · exact h
  · simp only [List.length_append, List.length_singleton]
    omega
  · simpa [pySet_length] using h
  · exact h
  · simpa [pySet_length] using h
  · exact h

/-- C6: for every capacity and every sequence of `consider` calls starting
from the empty slot list, the number of kept slots never exceeds the
capacity — below capacity the call can only append one new slot, and at
capacity it can only replace a slot in place. -/
theorem c6_capacity_never_exceeded (K : Nat) (calls : List (ℚ × Grid)) :
    (considerRun K calls).length ≤ K := by
  suffices hgen : ∀ slots : List Slot, slots.length ≤ K →
      (calls.foldl (fun s c => (consider c.1 c.2 s K).slots) slots).length ≤ K by
    exact hgen [] (by simp)
  induction calls with
  | nil => intro slots h; simpa using h
  | cons c cs ih =>
    intro slots h
    exact ih _ (consider_slots_length_le c.1 c.2 slots K h)

/-- C7: after every `_do_take_picture_object` call the target set is
non-empty, and whenever the prune step emptied it, it was reseeded within
that same call to the canonical three categories with all counters zeroed. -/
theorem c7_reseed_on_empty (top_down_map fog_of_war_map : Grid)
    (tr : TrackerState) :
    (doTakePictureObject top_down_map fog_of_war_map tr).1.target_index_list ≠
      [] ∧
    ((deleteObservedTarget (doTakePictureScan top_down_map fog_of_war_map tr).2
        tr.target_index_list).1 = [] →
      (doTakePictureObject top_down_map fog_of_war_map tr).1 =
        ⟨canonicalTargets, [0, 0, 0]⟩) := by
  simp only [doTakePictureObject]
  by_cases h : (deleteObservedTarget
      (doTakePictureScan top_down_map fog_of_war_map tr).2
      tr.target_index_list).1.length = 0
  · simp only [if_pos h]
    exact ⟨by simp [canonicalTargets], by simp⟩
  · simp only [if_neg h]
    refine ⟨fun hnil => h ?_, fun hnil => absurd (by rw [hnil]; rfl) h⟩
    rw [hnil]
    rfl

/-- C7 witness: on the concrete scenario the prune empties the target set and
the same call reseeds it to the canonical categories with zero counters. -/
theorem c7_reseed_on_empty_witness :
    (doTakePictureObject tdm7 fog7 tr7).1 =
      TrackerState.mk canonicalTargets [0, 0, 0] :=
  (c7_reseed_on_empty tdm7 fog7 tr7).2 (by decide)

/-- The scan of `_do_take_picture_object` only writes counters in place, so
the counter array keeps its length. -/
theorem scanFold_length (top_down_map fog_of_war_map : Grid)
    (target_index_list : List Nat) :
    ∀ (ps : List (Nat × Nat)) (acc : Nat × List Nat),
      ((ps.foldl (scanStep top_down_map fog_of_war_map target_index_list)
        acc).2).length = acc.2.length := by
  intro ps
  induction ps with
  | nil => intro acc; rfl
  | cons p ps ih =>
    intro acc
    rw [List.foldl_cons, ih]
    simp only [scanStep]
    split_ifs <;> simp [List.length_set]

/-- The prune loop of `_delete_observed_target` only removes elements: its
result is a sublist-as-subset of its input. -/
theorem deleteLoop_subset (counters : List Nat) :
    ∀ (fuel : Nat) (l : List Nat) (i object_num : Nat),
      (deleteLoop counters fuel l i object_num).1 ⊆ l := by
  intro fuel
  induction fuel with
  | zero => intro l i object_num; exact fun x hx => hx
  | succ fuel ih =>
    intro l i object_num
    by_cases hi : i < l.length
    · conv_lhs => rw [deleteLoop]
      simp only [dif_pos hi]
      split_ifs
      · exact (ih (l.erase (l.get ⟨i, hi⟩)) (i + 1) (object_num + 1)).trans
          (List.erase_subset _ _)
      · exact ih l (i + 1) object_num
    · rw [deleteLoop]
      simp only [dif_neg hi]
      exact fun x hx => hx

/-- `_delete_observed_target` never adds a category to the target set. -/
theorem deleteObservedTarget_subset (counters target_index_list : List Nat) :
    (deleteObservedTarget counters target_index_list).1 ⊆ target_index_list :=
  deleteLoop_subset counters target_index_list.length target_index_list 0 0

/-- `_do_take_picture_object` preserves the tracker invariant. -/
theorem doTakePictureObject_inv (top_down_map fog_of_war_map : Grid)
    (tr : TrackerState) (h : TrackerInv tr) :
    TrackerInv (doTakePictureObject top_down_map fog_of_war_map tr).1 := by
  simp only [doTakePictureObject]
  split_ifs with hlen
  · exact ⟨fun x hx => hx, rfl⟩
  · constructor
    · intro x hx
      exact h.1 x (deleteObservedTarget_subset _ _ hx)
    · have := scanFold_length top_down_map fog_of_war_map
        tr.target_index_list (gridIdx top_down_map)
        (0, tr.observed_object_ci_one)
      simpa [doTakePictureScan, this] using h.2

/-- C10: the target-tracking state machine keeps every target set inside the
canonical three categories and every counter access in bounds — the
invariant holds at initialization, is preserved by `_do_take_picture_object`
and by a full training tick (per-step counter reset, rollout step, episode
reset), and under it every category yields a counter index
`x - MAP_TARGET_POINT_INDICATOR` in `{0, 1, 2}`, in bounds for the 3-entry
counter array. -/
theorem c10_target_subset_invariant :
    TrackerInv ⟨canonicalTargets, [0, 0, 0]⟩ ∧
    (∀ (top_down_map fog_of_war_map : Grid) (tr : TrackerState),
      TrackerInv tr →
      TrackerInv (doTakePictureObject top_down_map fog_of_war_map tr).1) ∧
    (∀ (num_picture : Nat) (inp : TickInput) (st : EnvState),
      TrackerInv ⟨st.target_index_list, st.observed_object_ci_one⟩ →
      TrackerInv ⟨(trainTick num_picture inp st).1.target_index_list,
        (trainTick num_picture inp st).1.observed_object_ci_one⟩) ∧
    (∀ tr : TrackerState, TrackerInv tr →
      ∀ x ∈ tr.target_index_list,
        MAP_TARGET_POINT_INDICATOR ≤ x ∧
        x - MAP_TARGET_POINT_INDICATOR < 3) := by
  refine ⟨⟨fun x hx => hx, rfl⟩, doTakePictureObject_inv, ?_, ?_⟩
  · intro num_picture inp st h
    have h0 : TrackerInv ⟨st.target_index_list, [0, 0, 0]⟩ := ⟨h.1, rfl⟩
    have hstep := doTakePictureObject_inv inp.top_map inp.fog_of_war_map
      ⟨st.target_index_list, [0, 0, 0]⟩ h0
    cases hcap : inp.captureAttempt <;> cases hd : inp.done
    · have ht : (trainTick num_picture inp st).1.target_index_list =
          st.target_index_list := by
        simp [trainTick, collectRolloutStepEnv, hcap, hd]
      have hc : (trainTick num_picture inp st).1.observed_object_ci_one =
          [0, 0, 0] := by
        simp [trainTick, collectRolloutStepEnv, hcap, hd]
      exact ⟨fun x hx => h.1 x (ht ▸ hx), by rw [hc]; rfl⟩
    · have ht : (trainTick num_picture inp st).1.target_index_list =
          canonicalTargets := by
        simp [trainTick, collectRolloutStepEnv, hcap, hd]
      have hc : (trainTick num_picture inp st).1.observed_object_ci_one =
          [0, 0, 0] := by
        simp [trainTick, collectRolloutStepEnv, hcap, hd]
      exact ⟨fun x hx => ht ▸ hx, by rw [hc]; rfl⟩
    · have ht : (trainTick num_picture inp st).1.target_index_list =
          (doTakePictureObject inp.top_map inp.fog_of_war_map
            ⟨st.target_index_list, [0, 0, 0]⟩).1.target_index_list := by
        simp [trainTick, collectRolloutStepEnv, hcap, hd]
      have hc : (trainTick num_picture inp st).1.observed_object_ci_one =
          (doTakePictureObject inp.top_map inp.fog_of_war_map
            ⟨st.target_index_list, [0, 0, 0]⟩).1.observed_object_ci_one := by
        simp [trainTick, collectRolloutStepEnv, hcap, hd]
      exact ⟨fun x hx => hstep.1 x (ht ▸ hx), by rw [hc]; exact hstep.2⟩
    · have ht : (trainTick num_picture inp st).1.target_index_list =
          canonicalTargets := by
        simp [trainTick, collectRolloutStepEnv, hcap, hd]
      have hc : (trainTick num_picture inp st).1.observed_object_ci_one =
          (doTakePictureObject inp.top_map inp.fog_of_war_map
            ⟨st.target_index_list, [0, 0, 0]⟩).1.observed_object_ci_one := by
        simp [trainTick, collectRolloutStepEnv, hcap, hd]
      exact ⟨fun x hx => ht ▸ hx, by rw [hc]; exact hstep.2⟩
  · intro tr h x hx
    have hc := h.1 x hx
    simp only [canonicalTargets, MAP_TARGET_POINT_INDICATOR, List.mem_cons,
      List.mem_singleton, List.not_mem_nil, or_false] at hc
    simp only [MAP_TARGET_POINT_INDICATOR]
    rcases hc with rfl | rfl | rfl <;> omega

/-- C10 witness: the invariant at a concrete state with two targets, carried
through a concrete `_do_take_picture_object` call. -/
theorem c10_target_subset_invariant_witness :
    TrackerInv (doTakePictureObject tdm7 fog7
      (TrackerState.mk [6, 8] [0, 0, 0])).1 :=
  c10_target_subset_invariant.2.1 tdm7 fog7 ⟨[6, 8], [0, 0, 0]⟩
    ⟨by decide, rfl⟩

/-- C1: the claim's own concrete scenario run on the code as written — with
slots `[(10, mapA1), (5, mapB1)]` at capacity 2 and a new disjoint capture
of score 8, the weakest-slot search of ppo_trainer.py:429-439 compares its
running minimum (initialized to the raw score 8) against the score at list
index `-1` (the last slot, score 5), never validates its index, leaves
`idx = -1`, and so the capacity-exceeded branch discards the capture:
nothing is replaced and the returned reward delta and `ci` are 0, although
the weakest slot's score 5 is below the raw score 8 (the claim, matching
the source's own comments at ppo_trainer.py:436 and 451, requires the
(5, mapB1) slot to be replaced with reward delta 3). -/
theorem c1_weakest_replacement_bug :
    (consider 8 mapC1 [(10, mapA1), (5, mapB1)] 2).slots.map Prod.fst =
      [10, 5] ∧
    (consider 8 mapC1 [(10, mapA1), (5, mapB1)] 2).reward_delta = 0 ∧
    (consider 8 mapC1 [(10, mapA1), (5, mapB1)] 2).ci = 0 ∧
    (coverSearch mapC1 [(10, mapA1), (5, mapB1)] 8).1 = [] ∧
    (5 : ℚ) < 8 := by
  decide

/-- C3: a single `_do_take_picture_object` call in which two adjacent
categories (6 and 7) cross the threshold in the same call — the scan leaves
both counters at 21 > 20, but the `for`-loop of `_delete_observed_target`
removes category 6 while iterating over the same list, shifting category 7
under the iterator, so the call removes only category 6 (returning
`categories_exhausted = 1`) and category 7 remains in the target set with a
counter exceeding the threshold, contradicting the claim that no remaining
category exceeds it. -/
theorem c3_prune_skips_adjacent :
    (doTakePictureObject tdm3 fog3 tr3).1.target_index_list = [7, 8] ∧
    (doTakePictureObject tdm3 fog3 tr3).1.observed_object_ci_one =
      [21, 21, 0] ∧
    (doTakePictureObject tdm3 fog3 tr3).2.2 = 1 ∧
    7 ∈ (doTakePictureObject tdm3 fog3 tr3).1.target_index_list ∧
    (doTakePictureObject tdm3 fog3 tr3).1.observed_object_ci_one.getD
      (7 - MAP_TARGET_POINT_INDICATOR) 0 > TARGET_THRESHOLD_ONE := by
  decide

/-- C5 counterexample: between two consecutive ticks of the same episode
(no capture, episode not done) the training loop's per-step initialization
at ppo_trainer.py:716-717 zeroes the per-category counters, so a counter
value of 5 does not persist to the end of the next tick — refuting the
claim that no step of the control loop zeroes them within an episode. -/
theorem c5_counters_not_persistent :
    inp5.done = false ∧
    st5.observed_object_ci_one = [5, 0, 0] ∧
    (trainTick 2 inp5 st5).1.observed_object_ci_one = [0, 0, 0] ∧
    ¬ (trainTick 2 inp5 st5).1.observed_object_ci_one =
      st5.observed_object_ci_one := by
  decide

/-- C5 (amended): the per-category counters are zeroed by the training loop
at the start of every tick (ppo_trainer.py:716-717), so on a tick with no
capture they are `[0, 0, 0]` at tick end regardless of the previous state;
and the episode-boundary reset inside `_collect_rollout_step`
(ppo_trainer.py:521-523) clears the slot list and reseeds the target list
but does not itself zero the counters. -/
theorem c5_counters_zeroed_every_tick (num_picture : Nat) (inp : TickInput)
    (st : EnvState) (hcap : inp.captureAttempt = false) :
    (trainTick num_picture inp st).1.observed_object_ci_one = [0, 0, 0] ∧
    (collectRolloutStepEnv num_picture inp st).1.observed_object_ci_one =
      st.observed_object_ci_one := by
  cases hd : inp.done
  · constructor <;> simp [trainTick, collectRolloutStepEnv, hcap, hd]
  · constructor <;> simp [trainTick, collectRolloutStepEnv, hcap, hd]

/-- C5 witness: the amended statement at the concrete mid-episode state. -/
theorem c5_counters_zeroed_every_tick_witness :
    (trainTick 2 inp5 st5).1.observed_object_ci_one = [0, 0, 0] ∧
    (collectRolloutStepEnv 2 inp5 st5).1.observed_object_ci_one =
      st5.observed_object_ci_one :=
  c5_counters_zeroed_every_tick 2 inp5 st5 rfl

/-- The `cover_list` component of the search fold is insensitive to the
`(idx, min_ci)` bookkeeping: it is the filter of the scanned indices. -/
theorem coverFold_fst (pmap : Grid) (slots : List Slot) :
    ∀ (ks : List Nat) (acc : List Nat × Int × ℚ),
      (ks.foldl (coverSearchStep pmap slots) acc).1 =
        acc.1 ++ ks.filter (fun k =>
          decide (checkPercentageOfFog pmap ((slots.getD k dSlot).2)
            (mkRat 1 4) = some true)) := by
  intro ks
  induction ks with
  | nil => intro acc; simp
  | cons k ks ih =>
    intro acc
    rw [List.foldl_cons, ih]
    have hstep : (coverSearchStep pmap slots acc k).1 =
        acc.1 ++ (if checkPercentageOfFog pmap ((slots.getD k dSlot).2)
          (mkRat 1 4) = some true then [k] else []) := by
      simp only [coverSearchStep]
      split_ifs <;> simp
    rw [hstep, List.filter_cons]
    simp only [decide_eq_true_eq]
    split_ifs with hc
    · simp
    · simp

/-- The overlap list computed by `coverSearch` is `CoverList`. -/
theorem coverSearch_fst (pmap : Grid) (slots : List Slot) (raw : ℚ) :
    (coverSearch pmap slots raw).1 = CoverList pmap slots := by
  rw [coverSearch, coverFold_fst]
  rfl

/-- The running minimum of the `(min_idx, min_ci_k)` fold never increases. -/
theorem coverMinFold_le (slots : List Slot) :
    ∀ (cl : List Nat) (acc : Int × ℚ),
      (cl.foldl (coverMinStep slots) acc).2 ≤ acc.2 := by
  intro cl
  induction cl with
  | nil => intro acc; exact le_refl _
  | cons k cl ih =>
    intro acc
    rw [List.foldl_cons]
    refine (ih _).trans ?_
    simp only [coverMinStep]
    split_ifs with h
    · exact le_of_lt h
    · exact le_refl _

/-- The running minimum of the fold is below every scanned slot score. -/
theorem coverMinFold_le_mem (slots : List Slot) :
    ∀ (cl : List Nat) (acc : Int × ℚ) (k : Nat), k ∈ cl →
      (cl.foldl (coverMinStep slots) acc).2 ≤ (slots.getD k dSlot).1 := by
  intro cl
  induction cl with
  | nil => intro acc k hk; exact absurd hk (List.not_mem_nil k)
  | cons a cl ih =>
    intro acc k hk
    rw [List.foldl_cons]
    rcases List.mem_cons.mp hk with rfl | hk
    · refine (coverMinFold_le slots cl _).trans ?_
      simp only [coverMinStep]
      split_ifs with h
      · exact le_refl _
      · exact not_lt.mp h
    · exact ih _ k hk

/-- The fold either keeps its initial accumulator or lands on the index and
score of one of the scanned slots. -/
theorem coverMinFold_eq (slots : List Slot) :
    ∀ (cl : List Nat) (acc : Int × ℚ),
      cl.foldl (coverMinStep slots) acc = acc ∨
      ∃ m ∈ cl, cl.foldl (coverMinStep slots) acc =
        ((m : Int), (slots.getD m dSlot).1) := by
  intro cl
  induction cl with
  | nil => intro acc; exact Or.inl rfl
  | cons a cl ih =>
    intro acc
    rw [List.foldl_cons]
    rcases ih (coverMinStep slots acc a) with h | ⟨m, hm, h⟩
    · rw [h]
      simp only [coverMinStep]
      split_ifs
      · exact Or.inr ⟨a, List.mem_cons_self a cl, rfl⟩
      · exact Or.inl rfl
    · exact Or.inr ⟨m, List.mem_cons_of_mem a hm, h⟩

/-- A Python write at a non-negative index is a plain list update. -/
theorem pySet_natCast (slots : List Slot) (m : Nat) (v : Slot) :
    pySet slots (m : Int) v = slots.set m v := by
  simp [pySet, Int.natCast_nonneg]

/-- On the overlap branch (nonempty `cover_list`, nonzero score) `consider`
reduces to the comparison-and-replace step of ppo_trainer.py:462-479. -/
theorem consider_covered (raw : ℚ) (pmap : Grid) (slots : List Slot)
    (num_picture : Nat) (hraw0 : ¬ raw = 0)
    (hne : CoverList pmap slots ≠ []) :
    consider raw pmap slots num_picture =
      if compareWithChangedCI pmap (slots.map Prod.snd) (CoverList pmap slots)
          raw (coverMin slots (CoverList pmap slots)).2
          (coverMin slots (CoverList pmap slots)).1 = true then
        ⟨pySet slots (coverMin slots (CoverList pmap slots)).1 (raw, pmap),
          raw - (coverMin slots (CoverList pmap slots)).2,
          raw - (coverMin slots (CoverList pmap slots)).2⟩
      else ⟨slots, 0, 0⟩ := by
  simp only [consider, coverSearch_fst, hraw0, hne, if_false, ite_false]

/-- C2 (amended): when the capture overlaps at least one kept slot and some
overlapped slot has score below the sentinel 1000 used to initialize the
minimum search at ppo_trainer.py:464, the minimum-score overlapped slot `m`
is selected; the capture replaces it exactly when the overlap-adjusted score
`raw * (1 − rate against the other overlapped slots)` exceeds slot `m`'s
score; on replacement the stored score is the original raw score and the
returned reward delta is `raw − slots[m].score` (not the adjusted score
minus it, as the original claim stated); otherwise nothing changes and the
delta is 0. -/
theorem c2_overlap_replacement (raw : ℚ) (pmap : Grid) (slots : List Slot)
    (num_picture : Nat) (hraw : 0 < raw) (hne : CoverList pmap slots ≠ [])
    (hlow : ∃ k ∈ CoverList pmap slots, (slots.getD k dSlot).1 < 1000) :
    ∃ m ∈ CoverList pmap slots,
      (∀ k ∈ CoverList pmap slots,
        (slots.getD m dSlot).1 ≤ (slots.getD k dSlot).1) ∧
      ((slots.getD m dSlot).1 <
          raw * (1 - calRateOfFogOther pmap (slots.map Prod.snd)
            (CoverList pmap slots) (m : Int)) →
        consider raw pmap slots num_picture =
          ⟨slots.set m (raw, pmap), raw - (slots.getD m dSlot).1,
            raw - (slots.getD m dSlot).1⟩) ∧
      (¬ (slots.getD m dSlot).1 <
          raw * (1 - calRateOfFogOther pmap (slots.map Prod.snd)
            (CoverList pmap slots) (m : Int)) →
        consider raw pmap slots num_picture = ⟨slots, 0, 0⟩) := by
  obtain ⟨k0, hk0, hk0lt⟩ := hlow
  have hminB := coverMinFold_le_mem slots (CoverList pmap slots) (-1, 1000)
    k0 hk0
  rcases coverMinFold_eq slots (CoverList pmap slots) (-1, 1000) with
    hacc | ⟨m, hm, hmeq⟩
  · rw [hacc] at hminB
    exact absurd hminB (not_le.mpr hk0lt)
  · have hmeq' : coverMin slots (CoverList pmap slots) =
        ((m : Int), (slots.getD m dSlot).1) := hmeq
    have hraw0 : ¬ raw = 0 := ne_of_gt hraw
    refine ⟨m, hm, ?_, ?_, ?_⟩
    · intro k hk
      have hb := coverMinFold_le_mem slots (CoverList pmap slots) (-1, 1000)
        k hk
      rw [hmeq] at hb
      exact hb
    · intro hlt
      have hcmp : compareWithChangedCI pmap (slots.map Prod.snd)
          (CoverList pmap slots) raw ((slots.getD m dSlot).1) (m : Int) =
          true := by
        simp only [compareWithChangedCI, decide_eq_true_eq]
        exact hlt
      rw [consider_covered raw pmap slots num_picture hraw0 hne, hmeq']
      dsimp only
      rw [hcmp, if_pos rfl, pySet_natCast]
    · intro hlt
      have hcmp : compareWithChangedCI pmap (slots.map Prod.snd)
          (CoverList pmap slots) raw ((slots.getD m dSlot).1) (m : Int) =
          false := by
        simp only [compareWithChangedCI, decide_eq_false_iff_not]
        exact hlt
      rw [consider_covered raw pmap slots num_picture hraw0 hne, hmeq']
      dsimp only
      rw [hcmp]
      simp

/-- C2 counterexample: with kept slots `[(3, mapP2), (1, mapQ2)]` and the new
capture `mapR2` of raw score 4 overlapping both (so the minimum-score
overlapped slot is index 1, score 1, and the rate against the other
overlapped slot is 1/2, giving adjusted score 2), the code returns reward
delta `raw − min = 3`, not `adjusted − min = 1` as the claim states. -/
theorem c2_reward_uses_raw_not_adjusted :
    CoverList mapR2 [(3, mapP2), (1, mapQ2)] = [0, 1] ∧
    calRateOfFogOther mapR2 [mapP2, mapQ2] [0, 1] 1 = mkRat 1 2 ∧
    (consider 4 mapR2 [(3, mapP2), (1, mapQ2)] 2).reward_delta = 3 ∧
    (4 : ℚ) * (1 - mkRat 1 2) - 1 = 1 ∧
    (consider 4 mapR2 [(3, mapP2), (1, mapQ2)] 2).reward_delta ≠
      (4 : ℚ) * (1 - mkRat 1 2) - 1 := by
  have h2 : coverSearch mapR2 [(3, mapP2), (1, mapQ2)] 4 =
      ([0, 1], -1, 4) := by decide
  have h3 : coverMin [(3, mapP2), (1, mapQ2)] [0, 1] = (1, 1) := by decide
  have h4 : calRateOfFogOther mapR2 [mapP2, mapQ2] [0, 1] 1 = mkRat 1 2 := by
    decide
  have h5 : compareWithChangedCI mapR2 [mapP2, mapQ2] [0, 1] 4 1 1 = true := by
    simp only [compareWithChangedCI, h4, decide_eq_true_eq]
    rw [Rat.mkRat_eq_div]
    norm_num
  have h6 : (consider 4 mapR2 [(3, mapP2), (1, mapQ2)] 2).reward_delta = 3 := by
    have hmap : ([(3, mapP2), (1, mapQ2)] : List Slot).map Prod.snd =
        [mapP2, mapQ2] := rfl
    simp only [consider, h2, hmap]
    norm_num [h3, h5]
    simp
  refine ⟨by decide, h4, h6, ?_, ?_⟩
  · rw [Rat.mkRat_eq_div]
    norm_num
  · rw [h6, Rat.mkRat_eq_div]
    norm_num

/-- C2 witness: the amended statement at the concrete overlap scenario of
`c2_reward_uses_raw_not_adjusted`. -/
theorem c2_overlap_replacement_witness :
    ∃ m ∈ CoverList mapR2 [(3, mapP2), (1, mapQ2)],
      (∀ k ∈ CoverList mapR2 [(3, mapP2), (1, mapQ2)],
        (([(3, mapP2), (1, mapQ2)] : List Slot).getD m dSlot).1 ≤
          (([(3, mapP2), (1, mapQ2)] : List Slot).getD k dSlot).1) ∧
      ((([(3, mapP2), (1, mapQ2)] : List Slot).getD m dSlot).1 <
          4 * (1 - calRateOfFogOther mapR2
            (([(3, mapP2), (1, mapQ2)] : List Slot).map Prod.snd)
            (CoverList mapR2 [(3, mapP2), (1, mapQ2)]) (m : Int)) →
        consider 4 mapR2 [(3, mapP2), (1, mapQ2)] 2 =
          ⟨([(3, mapP2), (1, mapQ2)] : List Slot).set m (4, mapR2),
            4 - (([(3, mapP2), (1, mapQ2)] : List Slot).getD m dSlot).1,
            4 - (([(3, mapP2), (1, mapQ2)] : List Slot).getD m dSlot).1⟩) ∧
      (¬ (([(3, mapP2), (1, mapQ2)] : List Slot).getD m dSlot).1 <
          4 * (1 - calRateOfFogOther mapR2
            (([(3, mapP2), (1, mapQ2)] : List Slot).map Prod.snd)
            (CoverList mapR2 [(3, mapP2), (1, mapQ2)]) (m : Int)) →
        consider 4 mapR2 [(3, mapP2), (1, mapQ2)] 2 =
          ⟨[(3, mapP2), (1, mapQ2)], 0, 0⟩) :=
  c2_overlap_replacement 4 mapR2 [(3, mapP2), (1, mapQ2)] 2 (by norm_num)
    (by decide) ⟨1, by decide, by decide⟩
